import Mathlib

/-!
Verification of the bird-flocking simulation (rust-birdflock).

The repository contains three variants of the same simulation:
* `src/src/main.rs` and `src/rayon/src/main.rs` update each bird in place
  with a rayon `par_iter_mut` closure reading a cloned snapshot;
* `src/singlethread/src/main.rs` computes `calculate_bird_update` per bird
  on a thread pool, collects `(position, velocity)` pairs into a
  zero-initialised results buffer, and merges them back.

This file shallowly embeds the numeric core over `ℝ` (machine `f32`
modelled as real numbers): the `Bird` record, the `wraparound` boundary
function with Rust's truncating `%` semantics, `limit_vec`, the per-bird
neighbour scan, the per-bird update of both variants, the whole-population
step, and the threadpool chunking/merge logic.  The six tunable constants
are threaded through a `Params` record whose `defaultParams` instance holds
the constants of the source.
-/

namespace BirdFlock

/-- A 3-component real vector, modelling nalgebra's `Vector3<f32>`. -/
structure Vec3 where
  x : ℝ
  y : ℝ
  z : ℝ

namespace Vec3

instance : Zero Vec3 := ⟨⟨0, 0, 0⟩⟩
instance : Add Vec3 := ⟨fun a b => ⟨a.x + b.x, a.y + b.y, a.z + b.z⟩⟩
instance : Sub Vec3 := ⟨fun a b => ⟨a.x - b.x, a.y - b.y, a.z - b.z⟩⟩
instance : Neg Vec3 := ⟨fun a => ⟨-a.x, -a.y, -a.z⟩⟩
instance : SMul ℝ Vec3 := ⟨fun c a => ⟨c * a.x, c * a.y, c * a.z⟩⟩

/-- Componentwise division of a vector by a scalar (nalgebra `Vector3 / f32`). -/
noncomputable def divs (v : Vec3) (c : ℝ) : Vec3 := ⟨v.x / c, v.y / c, v.z / c⟩

/-- Euclidean norm, modelling nalgebra's `.norm()`. -/
noncomputable def norm (v : Vec3) : ℝ := Real.sqrt (v.x ^ 2 + v.y ^ 2 + v.z ^ 2)

/-- nalgebra's `.normalize()`: componentwise division by the norm. -/
noncomputable def normalize (v : Vec3) : Vec3 := v.divs v.norm

noncomputable instance : DecidableEq Vec3 := Classical.decEq _

end Vec3

/-! ## Tunable parameters

The sources fix six tunable constants plus the domain bounds; the model
threads them through a record so that claims stated "for non-negative
parameters" or "when `SPACE_MAX > SPACE_MIN`" can be expressed.
`defaultParams` holds the concrete values from the source files. -/

structure Params where
  SPACE_MIN : ℝ
  SPACE_MAX : ℝ
  SEPARATION_WEIGHT : ℝ
  ALIGNMENT_WEIGHT : ℝ
  COHESION_WEIGHT : ℝ
  PERCEPTION_RADIUS : ℝ
  MAX_SPEED : ℝ
  MAX_FORCE : ℝ

/-- `DIMENSIONS = 7.5`, `SPACE_MIN = -DIMENSIONS`, `SPACE_MAX = DIMENSIONS`,
and the six tunables as in all three `main.rs` variants. -/
noncomputable def defaultParams : Params :=
  { SPACE_MIN := -7.5
    SPACE_MAX := 7.5
    SEPARATION_WEIGHT := 1.5
    ALIGNMENT_WEIGHT := 2.0
    COHESION_WEIGHT := 1.5
    PERCEPTION_RADIUS := 1.9
    MAX_SPEED := 0.125
    MAX_FORCE := 0.03 }

/-! ## Rust float remainder and `wraparound` -/

/-- Truncation toward zero, as used by Rust's `%` on floats. -/
noncomputable def truncR (x : ℝ) : ℤ := if 0 ≤ x then ⌊x⌋ else ⌈x⌉

/-- Rust's `%` on floats: `x % y = x - y * trunc(x / y)`. -/
noncomputable def rustRem (x y : ℝ) : ℝ := x - y * (truncR (x / y) : ℝ)

/-- One axis of `wraparound` (`src/src/main.rs:50-59`): a coordinate below
`SPACE_MIN` re-enters from the top, one above `SPACE_MAX` re-enters from the
bottom, via the float remainder of the overshoot by the domain width. -/
noncomputable def wrap1 (smin smax v : ℝ) : ℝ :=
  if v < smin then smax - rustRem (smin - v) (smax - smin)
  else if smax < v then smin + rustRem (v - smax) (smax - smin)
  else v

/-- `wraparound` applied to each axis of a position independently
(`src/src/main.rs:50-59`, identical in the other two variants). -/
noncomputable def wraparound (p : Params) (v : Vec3) : Vec3 :=
  ⟨wrap1 p.SPACE_MIN p.SPACE_MAX v.x,
   wrap1 p.SPACE_MIN p.SPACE_MAX v.y,
   wrap1 p.SPACE_MIN p.SPACE_MAX v.z⟩

/-- `limit_vec` (`src/src/main.rs:61-67`): rescale to magnitude `max` when the
norm exceeds `max`, otherwise return the vector unchanged. -/
noncomputable def limit_vec (v : Vec3) (max : ℝ) : Vec3 :=
  if max < v.norm then max • v.normalize else v

/-- One simulated agent (`struct Bird`). -/
structure Bird where
  position : Vec3
  velocity : Vec3
  acceleration : Vec3

/-- Accumulators of the neighbour scan: the three running sums and the
neighbour count `total`. -/
structure Accum where
  separation : Vec3
  alignment : Vec3
  cohesion : Vec3
  total : ℕ

/-- One iteration of the neighbour scan (`for other in &birds_snapshot`):
an agent at distance `d` with `0 < d < PERCEPTION_RADIUS` contributes
`(position − other.position) / d` to separation, its velocity to alignment,
its position to cohesion, and 1 to the count. -/
noncomputable def scanStep (p : Params) (pos : Vec3) (acc : Accum) (other : Bird) :
    Accum :=
  let distance := (pos - other.position).norm
  if 0 < distance ∧ distance < p.PERCEPTION_RADIUS then
    { separation := acc.separation + (pos - other.position).divs distance
      alignment := acc.alignment + other.velocity
      cohesion := acc.cohesion + other.position
      total := acc.total + 1 }
  else acc

/-- The full neighbour scan over the snapshot, starting from zeroed
accumulators. -/
noncomputable def scanAll (p : Params) (pos : Vec3) (snapshot : List Bird) :
    Accum :=
  snapshot.foldl (scanStep p pos) ⟨0, 0, 0, 0⟩

/-- The per-bird update body of the rayon variants
(`src/src/main.rs:156-213`, `src/rayon/src/main.rs:190-254`): scan the
snapshot, convert non-zero averaged accumulators into clamped steering
forces, store the weighted force sum in `acceleration`, clamp the new
velocity to `MAX_SPEED`, and wrap the new position. -/
noncomputable def rayonStepBird (p : Params) (bird : Bird) (snapshot : List Bird) :
    Bird :=
  let a := scanAll p bird.position snapshot
  let forces :=
    if 0 < a.total then
      let separation :=
        let s := a.separation.divs (a.total : ℝ)
        if 0 < s.norm then
          limit_vec (p.MAX_SPEED • s.normalize - bird.velocity) p.MAX_FORCE
        else s
      let alignment :=
        let s := a.alignment.divs (a.total : ℝ)
        if 0 < s.norm then
          limit_vec (p.MAX_SPEED • s.normalize - bird.velocity) p.MAX_FORCE
        else s
      let cohesion :=
        let s := a.cohesion.divs (a.total : ℝ) - bird.position
        if 0 < s.norm then
          limit_vec (p.MAX_SPEED • s.normalize - bird.velocity) p.MAX_FORCE
        else s
      (separation, alignment, cohesion)
    else (a.separation, a.alignment, a.cohesion)
  let acceleration :=
    p.SEPARATION_WEIGHT • forces.1 +
    p.ALIGNMENT_WEIGHT • forces.2.1 +
    p.COHESION_WEIGHT • forces.2.2
  let velocity0 := bird.velocity + acceleration
  let velocity :=
    if p.MAX_SPEED < velocity0.norm then p.MAX_SPEED • velocity0.normalize
    else velocity0
  let position := wraparound p (bird.position + velocity)
  { position := position, velocity := velocity, acceleration := acceleration }

/-- `calculate_bird_update` of the threadpool variant
(`src/singlethread/src/main.rs:74-140`): same scan, but the three steering
forces live in dedicated variables initialised to zero and the weighted sum
is only formed inside the `total > 0` branch; returns the new
`(position, velocity)` pair.  The `index` argument is only used for
debug printing in the source. -/
noncomputable def calculate_bird_update (p : Params) (index : ℕ) (bird : Bird)
    (snapshot : List Bird) : Vec3 × Vec3 :=
  let a := scanAll p bird.position snapshot
  let acceleration :=
    if 0 < a.total then
      let separation := a.separation.divs (a.total : ℝ)
      let sep_force :=
        if 0 < separation.norm then
          limit_vec (p.MAX_SPEED • separation.normalize - bird.velocity) p.MAX_FORCE
        else 0
      let alignment := a.alignment.divs (a.total : ℝ)
      let align_force :=
        if 0 < alignment.norm then
          limit_vec (p.MAX_SPEED • alignment.normalize - bird.velocity) p.MAX_FORCE
        else 0
      let cohesion := a.cohesion.divs (a.total : ℝ) - bird.position
      let coh_force :=
        if 0 < cohesion.norm then
          limit_vec (p.MAX_SPEED • cohesion.normalize - bird.velocity) p.MAX_FORCE
        else 0
      p.SEPARATION_WEIGHT • sep_force +
      p.ALIGNMENT_WEIGHT • align_force +
      p.COHESION_WEIGHT • coh_force
    else 0
  let velocity0 := bird.velocity + acceleration
  let velocity :=
    if p.MAX_SPEED < velocity0.norm then p.MAX_SPEED • velocity0.normalize
    else velocity0
  let position := wraparound p (bird.position + velocity)
  (position, velocity)

/-- One whole-population step of the rayon variants: every bird is updated
against the cloned snapshot, which is the pre-step population. -/
noncomputable def stepFlock (p : Params) (birds : List Bird) : List Bird :=
  birds.map (fun bird => rayonStepBird p bird birds)

/-- `n` sequential steps of the rayon simulation. -/
noncomputable def simulate (p : Params) (birds : List Bird) : ℕ → List Bird
  | 0 => birds
  | n + 1 => stepFlock p (simulate p birds n)

/-! ## Reference algorithm transcribed from the specification

For the refinement claims the spec's description of the per-step update is
transcribed into its own definitions (`specSep`, `specAlign`, `specCoh`,
`specCount`, `specStep`), written as plain recursions over the snapshot,
and proved equal to the embedded source code. -/

/-- Spec: each other agent `j` at distance `d` with
`0 < d < PERCEPTION_RADIUS` contributes `(position[i] − position[j]) / d`
to the separation accumulator. -/
noncomputable def specSep (p : Params) (pos : Vec3) : List Bird → Vec3
  | [] => 0
  | o :: rest =>
      (let d := (pos - o.position).norm
       if 0 < d ∧ d < p.PERCEPTION_RADIUS then (pos - o.position).divs d else 0)
      + specSep p pos rest

/-- Spec: each neighbour contributes `velocity[j]` to the alignment
accumulator. -/
noncomputable def specAlign (p : Params) (pos : Vec3) : List Bird → Vec3
  | [] => 0
  | o :: rest =>
      (let d := (pos - o.position).norm
       if 0 < d ∧ d < p.PERCEPTION_RADIUS then o.velocity else 0)
      + specAlign p pos rest

/-- Spec: each neighbour contributes `position[j]` to the cohesion
accumulator. -/
noncomputable def specCoh (p : Params) (pos : Vec3) : List Bird → Vec3
  | [] => 0
  | o :: rest =>
      (let d := (pos - o.position).norm
       if 0 < d ∧ d < p.PERCEPTION_RADIUS then o.position else 0)
      + specCoh p pos rest

/-- Spec: each neighbour contributes 1 to `neighbor_count`. -/
noncomputable def specCount (p : Params) (pos : Vec3) : List Bird → ℕ
  | [] => 0
  | o :: rest =>
      (let d := (pos - o.position).norm
       if 0 < d ∧ d < p.PERCEPTION_RADIUS then 1 else 0)
      + specCount p pos rest

/-- Spec: a non-zero averaged accumulator is converted to the steering force
`normalize(·) * MAX_SPEED − velocity[i]` clamped to `MAX_FORCE`. -/
noncomputable def specSteer (p : Params) (vel s : Vec3) : Vec3 :=
  limit_vec (p.MAX_SPEED • s.normalize - vel) p.MAX_FORCE

/-- The per-step update exactly as the spec describes it: accumulate over
neighbours; if `neighbor_count > 0` divide each accumulator by the count and
(when non-zero; for cohesion, after subtracting `position[i]`) convert it to
the clamped steering force, and if `neighbor_count = 0` all three forces are
the zero vector; `acceleration` is the weighted force sum, the new velocity
is the old velocity plus acceleration clamped to `MAX_SPEED`, and the new
position is `wraparound(old position + new velocity)`. -/
noncomputable def specStep (p : Params) (bird : Bird) (snapshot : List Bird) :
    Bird :=
  let count := specCount p bird.position snapshot
  let sepF :=
    if count = 0 then 0 else
      let s := (specSep p bird.position snapshot).divs (count : ℝ)
      if s = 0 then s else specSteer p bird.velocity s
  let alignF :=
    if count = 0 then 0 else
      let s := (specAlign p bird.position snapshot).divs (count : ℝ)
      if s = 0 then s else specSteer p bird.velocity s
  let cohF :=
    if count = 0 then 0 else
      let s := (specCoh p bird.position snapshot).divs (count : ℝ) - bird.position
      if s = 0 then s else specSteer p bird.velocity s
  let acceleration :=
    p.SEPARATION_WEIGHT • sepF +
    p.ALIGNMENT_WEIGHT • alignF +
    p.COHESION_WEIGHT • cohF
  let velocity := limit_vec (bird.velocity + acceleration) p.MAX_SPEED
  let position := wraparound p (bird.position + velocity)
  { position := position, velocity := velocity, acceleration := acceleration }

/-! ## Threadpool variant: chunking, results buffer, merge

`src/singlethread/src/main.rs:224-271`: the step clones a snapshot,
allocates a results buffer `vec![(zeros, zeros); NUM_BIRDS]`, fans the index
range out to `num_tasks` chunked tasks, polls a completion counter with a
5-second bound (continuing with a warning if tasks are still missing), and
finally copies every buffer entry into the live store, resetting each
`acceleration` to zero.  The buffer is modelled by its contents at each
index; a task's net effect is to fill its chunk of the buffer, and the set
of tasks that finished before the bounded wait expired is an explicit
argument `completed`. -/

/-- The all-zero agent; also the value used by `vec![...]`'s zero
initialisation of the results buffer. -/
noncomputable def defaultBird : Bird := { position := 0, velocity := 0, acceleration := 0 }

/-- The zero-initialised results buffer
(`src/singlethread/src/main.rs:226`). -/
noncomputable def zeroResults : ℕ → Vec3 × Vec3 := fun _ => (0, 0)

/-- Net effect of pool task `t`: write `calculate_bird_update` for every
index in its chunk `[t·cs, min((t+1)·cs, n))` into the results buffer
(`src/singlethread/src/main.rs:231-254`). -/
noncomputable def writeTask (p : Params) (snapshot : List Bird) (cs : ℕ)
    (results : ℕ → Vec3 × Vec3) (t : ℕ) : ℕ → Vec3 × Vec3 :=
  fun i =>
    if t * cs ≤ i ∧ i < min ((t + 1) * cs) snapshot.length then
      calculate_bird_update p i (snapshot.getD i defaultBird) snapshot
    else results i

/-- Contents of the results buffer after the tasks in `completed` have run
(in the non-stalled case `completed` is every task id). -/
noncomputable def runTasks (p : Params) (snapshot : List Bird) (cs : ℕ)
    (completed : List ℕ) : ℕ → Vec3 × Vec3 :=
  completed.foldl (writeTask p snapshot cs) zeroResults

/-- The write-back merge (`src/singlethread/src/main.rs:266-271`): every
buffer entry is copied into the live store and `acceleration` is reset to
zero. -/
noncomputable def mergeResults (n : ℕ) (results : ℕ → Vec3 × Vec3) : List Bird :=
  (List.range n).map fun i =>
    { position := (results i).1, velocity := (results i).2, acceleration := 0 }

/-- `num_tasks = (NUM_BIRDS + chunk_size - 1) / chunk_size`
(`src/singlethread/src/main.rs:228`). -/
def numTasks (n cs : ℕ) : ℕ := (n + cs - 1) / cs

/-- One step of the threadpool variant in which exactly the tasks listed in
`completed` finished before the bounded wait expired. -/
noncomputable def threadpoolStepWith (p : Params) (birds : List Bird) (cs : ℕ)
    (completed : List ℕ) : List Bird :=
  mergeResults birds.length (runTasks p birds cs completed)

/-- One step of the threadpool variant in the normal case: every task
completed. -/
noncomputable def threadpoolStep (p : Params) (birds : List Bird) (cs : ℕ) :
    List Bird :=
  threadpoolStepWith p birds cs (List.range (numTasks birds.length cs))

/-! ## Division-guard instrumentation

For the safety claim about denominators, the per-bird update is replayed in
the `Option` monad: every division site returns `none` when its denominator
is zero.  Proving the instrumented update always returns `some` of the
plain update shows every division in the code runs with a non-zero
denominator. -/

/-- Division of a vector by a scalar that fails on a zero denominator. -/
noncomputable def checkedDivs (v : Vec3) (c : ℝ) : Option Vec3 :=
  if c = 0 then none else some (v.divs c)

/-- Normalisation that fails on a zero-norm vector (nalgebra `normalize`
divides componentwise by the norm). -/
noncomputable def checkedNormalize (v : Vec3) : Option Vec3 :=
  if v.norm = 0 then none else some v.normalize

/-- `limit_vec` with its internal normalisation checked. -/
noncomputable def limit_vecChecked (v : Vec3) (max : ℝ) : Option Vec3 :=
  if max < v.norm then (checkedNormalize v).map (fun u => max • u) else some v

/-- The steering transform with both normalisations checked. -/
noncomputable def steerChecked (p : Params) (vel s : Vec3) : Option Vec3 :=
  (checkedNormalize s).bind fun u =>
    limit_vecChecked (p.MAX_SPEED • u - vel) p.MAX_FORCE

/-- One scan iteration with the division by `distance` checked. -/
noncomputable def scanStepChecked (p : Params) (pos : Vec3) (acc : Option Accum)
    (other : Bird) : Option Accum :=
  acc.bind fun acc =>
    let distance := (pos - other.position).norm
    if 0 < distance ∧ distance < p.PERCEPTION_RADIUS then
      (checkedDivs (pos - other.position) distance).map fun contrib =>
        { separation := acc.separation + contrib
          alignment := acc.alignment + other.velocity
          cohesion := acc.cohesion + other.position
          total := acc.total + 1 }
    else some acc

/-- The full scan with checked divisions. -/
noncomputable def scanAllChecked (p : Params) (pos : Vec3) (snapshot : List Bird) :
    Option Accum :=
  snapshot.foldl (scanStepChecked p pos) (some ⟨0, 0, 0, 0⟩)

/-- The rayon per-bird update with every division site checked: the three
accumulator divisions by `total`, the three zero-magnitude-guarded
normalisations, the normalisation inside each `limit_vec` call, and the
normalisation in the velocity clamp. -/
noncomputable def rayonStepBirdChecked (p : Params) (bird : Bird)
    (snapshot : List Bird) : Option Bird :=
  (scanAllChecked p bird.position snapshot).bind fun a =>
  (if 0 < a.total then
      (checkedDivs a.separation (a.total : ℝ)).bind fun s1 =>
      (if 0 < s1.norm then steerChecked p bird.velocity s1 else some s1).bind fun f1 =>
      (checkedDivs a.alignment (a.total : ℝ)).bind fun s2 =>
      (if 0 < s2.norm then steerChecked p bird.velocity s2 else some s2).bind fun f2 =>
      (checkedDivs a.cohesion (a.total : ℝ)).bind fun s3' =>
      (if 0 < (s3' - bird.position).norm then
          steerChecked p bird.velocity (s3' - bird.position)
        else some (s3' - bird.position)).map fun f3 =>
      (f1, f2, f3)
    else some (a.separation, a.alignment, a.cohesion)).bind fun forces =>
  let acceleration :=
    p.SEPARATION_WEIGHT • forces.1 +
    p.ALIGNMENT_WEIGHT • forces.2.1 +
    p.COHESION_WEIGHT • forces.2.2
  let velocity0 := bird.velocity + acceleration
  (if p.MAX_SPEED < velocity0.norm then
      (checkedNormalize velocity0).map (fun u => p.MAX_SPEED • u)
    else some velocity0).map fun velocity =>
  { position := wraparound p (bird.position + velocity)
    velocity := velocity
    acceleration := acceleration }

/-! ## Concrete inputs used by witnesses and counterexamples -/

/-- A bird away from the origin, used to exhibit the stalled-task
overwrite. -/
noncomputable def stalledBird : Bird :=
  { position := ⟨1, 2, 3⟩, velocity := 0, acceleration := 0 }

/-- A single bird at the origin with zero velocity. -/
noncomputable def restingBird : Bird :=
  { position := 0, velocity := 0, acceleration := 0 }

/-- Parameters that make the demonstration of a non-zero stored
acceleration easy to evaluate: only separation acts, the radius covers the
demo pair, and `MAX_FORCE` is large enough not to clamp. -/
noncomputable def demoParams : Params :=
  { SPACE_MIN := -7.5
    SPACE_MAX := 7.5
    SEPARATION_WEIGHT := 1
    ALIGNMENT_WEIGHT := 0
    COHESION_WEIGHT := 0
    PERCEPTION_RADIUS := 2
    MAX_SPEED := 1
    MAX_FORCE := 10 }

/-- A neighbour one unit along the x-axis from the origin. -/
noncomputable def demoOther : Bird :=
  { position := ⟨1, 0, 0⟩, velocity := 0, acceleration := 0 }

/-! ## Basic vector lemmas -/

namespace Vec3

theorem ext' {a b : Vec3} (hx : a.x = b.x) (hy : a.y = b.y) (hz : a.z = b.z) :
    a = b := by
  cases a; cases b; simp_all

@[simp] theorem zero_x : (0 : Vec3).x = 0 := rfl
@[simp] theorem zero_y : (0 : Vec3).y = 0 := rfl
@[simp] theorem zero_z : (0 : Vec3).z = 0 := rfl
@[simp] theorem add_x (a b : Vec3) : (a + b).x = a.x + b.x := rfl
@[simp] theorem add_y (a b : Vec3) : (a + b).y = a.y + b.y := rfl
@[simp] theorem add_z (a b : Vec3) : (a + b).z = a.z + b.z := rfl
@[simp] theorem sub_x (a b : Vec3) : (a - b).x = a.x - b.x := rfl
@[simp] theorem sub_y (a b : Vec3) : (a - b).y = a.y - b.y := rfl
@[simp] theorem sub_z (a b : Vec3) : (a - b).z = a.z - b.z := rfl
@[simp] theorem smul_x (c : ℝ) (a : Vec3) : (c • a).x = c * a.x := rfl
@[simp] theorem smul_y (c : ℝ) (a : Vec3) : (c • a).y = c * a.y := rfl
@[simp] theorem smul_z (c : ℝ) (a : Vec3) : (c • a).z = c * a.z := rfl
@[simp] theorem divs_x (v : Vec3) (c : ℝ) : (v.divs c).x = v.x / c := rfl
@[simp] theorem divs_y (v : Vec3) (c : ℝ) : (v.divs c).y = v.y / c := rfl
@[simp] theorem divs_z (v : Vec3) (c : ℝ) : (v.divs c).z = v.z / c := rfl

@[simp] theorem mk_zero : (Vec3.mk 0 0 0) = 0 := rfl

theorem smul_zero' (c : ℝ) : c • (0 : Vec3) = 0 := by
  apply ext' <;> simp

theorem add_zero' (a : Vec3) : a + 0 = a := by
  apply ext' <;> simp

theorem zero_add' (a : Vec3) : (0 : Vec3) + a = a := by
  apply ext' <;> simp

theorem norm_nonneg (v : Vec3) : 0 ≤ v.norm := Real.sqrt_nonneg _

@[simp] theorem norm_zero : (0 : Vec3).norm = 0 := by
  simp [norm]

theorem norm_eq_zero_iff (v : Vec3) : v.norm = 0 ↔ v = 0 := by
  constructor
  · intro h
    have hle : v.x ^ 2 + v.y ^ 2 + v.z ^ 2 ≤ 0 := Real.sqrt_eq_zero'.mp h
    have hx : v.x = 0 := by nlinarith [sq_nonneg v.x, sq_nonneg v.y, sq_nonneg v.z]
    have hy : v.y = 0 := by nlinarith [sq_nonneg v.x, sq_nonneg v.y, sq_nonneg v.z]
    have hz : v.z = 0 := by nlinarith [sq_nonneg v.x, sq_nonneg v.y, sq_nonneg v.z]
    exact ext' hx hy hz
  · rintro rfl; simp

theorem norm_pos_iff (v : Vec3) : 0 < v.norm ↔ v ≠ 0 := by
  constructor
  · intro h hv
    rw [hv] at h
    simp at h
  · intro hv
    rcases lt_or_eq_of_le (norm_nonneg v) with h | h
    · exact h
    · exact absurd ((norm_eq_zero_iff v).mp h.symm) hv

theorem norm_smul' (c : ℝ) (v : Vec3) : (c • v).norm = |c| * v.norm := by
  unfold norm
  have h : (c • v).x ^ 2 + (c • v).y ^ 2 + (c • v).z ^ 2
      = c ^ 2 * (v.x ^ 2 + v.y ^ 2 + v.z ^ 2) := by
    simp; ring
  rw [h, Real.sqrt_mul (sq_nonneg c), Real.sqrt_sq_eq_abs]

theorem divs_eq_smul (v : Vec3) (c : ℝ) : v.divs c = c⁻¹ • v := by
  apply ext' <;> simp [div_eq_inv_mul]

theorem norm_normalize (v : Vec3) (hv : v ≠ 0) : v.normalize.norm = 1 := by
  have hn : 0 < v.norm := (norm_pos_iff v).mpr hv
  rw [normalize, divs_eq_smul, norm_smul', abs_inv, abs_of_pos hn,
    inv_mul_cancel₀ (ne_of_gt hn)]

@[simp] theorem normalize_zero : (0 : Vec3).normalize = 0 := by
  apply ext' <;> simp [normalize]

end Vec3

/-! ## Remainder and wraparound lemmas -/

theorem rustRem_nonneg_of_pos (x y : ℝ) (hx : 0 ≤ x) (hy : 0 < y) :
    0 ≤ rustRem x y := by
  have hq : 0 ≤ x / y := div_nonneg hx hy.le
  rw [rustRem, truncR, if_pos hq]
  have h1 : (⌊x / y⌋ : ℝ) ≤ x / y := Int.floor_le _
  have h2 : y * (⌊x / y⌋ : ℝ) ≤ y * (x / y) := by
    exact mul_le_mul_of_nonneg_left h1 hy.le
  rw [mul_div_cancel₀ x (ne_of_gt hy)] at h2
  linarith

theorem rustRem_lt_of_pos (x y : ℝ) (hx : 0 ≤ x) (hy : 0 < y) :
    rustRem x y < y := by
  have hq : 0 ≤ x / y := div_nonneg hx hy.le
  rw [rustRem, truncR, if_pos hq]
  have h1 : x / y < (⌊x / y⌋ : ℝ) + 1 := Int.lt_floor_add_one _
  have h2 : y * (x / y) < y * ((⌊x / y⌋ : ℝ) + 1) := by
    exact mul_lt_mul_of_pos_left h1 hy
  rw [mul_div_cancel₀ x (ne_of_gt hy)] at h2
  nlinarith

theorem wrap1_mem (smin smax : ℝ) (h : smin < smax) (v : ℝ) :
    smin ≤ wrap1 smin smax v ∧ wrap1 smin smax v ≤ smax := by
  have hW : 0 < smax - smin := sub_pos.mpr h
  unfold wrap1
  by_cases h1 : v < smin
  · rw [if_pos h1]
    have hx : 0 ≤ smin - v := by linarith
    have hr0 := rustRem_nonneg_of_pos _ _ hx hW
    have hr1 := rustRem_lt_of_pos _ _ hx hW
    constructor <;> linarith
  · rw [if_neg h1]
    by_cases h2 : smax < v
    · rw [if_pos h2]
      have hx : 0 ≤ v - smax := by linarith
      have hr0 := rustRem_nonneg_of_pos _ _ hx hW
      have hr1 := rustRem_lt_of_pos _ _ hx hW
      constructor <;> linarith
    · rw [if_neg h2]
      constructor <;> linarith [not_lt.mp h1, not_lt.mp h2]

theorem wrap1_eq_of_mem (smin smax v : ℝ) (h1 : smin ≤ v) (h2 : v ≤ smax) :
    wrap1 smin smax v = v := by
  rw [wrap1, if_neg (not_lt.mpr h1), if_neg (not_lt.mpr h2)]

/-! ## Bridge between the source scan and the spec accumulators -/

theorem specSep_cons (p : Params) (pos : Vec3) (o : Bird) (rest : List Bird) :
    specSep p pos (o :: rest) =
      (if 0 < (pos - o.position).norm ∧
          (pos - o.position).norm < p.PERCEPTION_RADIUS then
        (pos - o.position).divs (pos - o.position).norm
      else 0) + specSep p pos rest := rfl

theorem specAlign_cons (p : Params) (pos : Vec3) (o : Bird) (rest : List Bird) :
    specAlign p pos (o :: rest) =
      (if 0 < (pos - o.position).norm ∧
          (pos - o.position).norm < p.PERCEPTION_RADIUS then
        o.velocity
      else 0) + specAlign p pos rest := rfl

theorem specCoh_cons (p : Params) (pos : Vec3) (o : Bird) (rest : List Bird) :
    specCoh p pos (o :: rest) =
      (if 0 < (pos - o.position).norm ∧
          (pos - o.position).norm < p.PERCEPTION_RADIUS then
        o.position
      else 0) + specCoh p pos rest := rfl

theorem specCount_cons (p : Params) (pos : Vec3) (o : Bird) (rest : List Bird) :
    specCount p pos (o :: rest) =
      (if 0 < (pos - o.position).norm ∧
          (pos - o.position).norm < p.PERCEPTION_RADIUS then
        1
      else 0) + specCount p pos rest := rfl

theorem scan_foldl_spec (p : Params) (pos : Vec3) (l : List Bird) (acc : Accum) :
    l.foldl (scanStep p pos) acc =
      { separation := acc.separation + specSep p pos l
        alignment := acc.alignment + specAlign p pos l
        cohesion := acc.cohesion + specCoh p pos l
        total := acc.total + specCount p pos l } := by
  induction l generalizing acc with
  | nil => simp [specSep, specAlign, specCoh, specCount, Vec3.add_zero']
  | cons o rest ih =>
    rw [List.foldl_cons, ih, specSep_cons, specAlign_cons, specCoh_cons,
      specCount_cons]
    by_cases hg : 0 < (pos - o.position).norm ∧
        (pos - o.position).norm < p.PERCEPTION_RADIUS
    · rw [if_pos hg, if_pos hg, if_pos hg, if_pos hg]
      simp only [scanStep, if_pos hg]
      congr 1
      · apply Vec3.ext' <;> simp <;> ring
      · apply Vec3.ext' <;> simp <;> ring
      · apply Vec3.ext' <;> simp <;> ring
      · omega
    · rw [if_neg hg, if_neg hg, if_neg hg, if_neg hg]
      simp only [scanStep, if_neg hg]
      congr 1
      · apply Vec3.ext' <;> simp
      · apply Vec3.ext' <;> simp
      · apply Vec3.ext' <;> simp
      · omega

theorem scanAll_eq_spec (p : Params) (pos : Vec3) (l : List Bird) :
    scanAll p pos l =
      { separation := specSep p pos l
        alignment := specAlign p pos l
        cohesion := specCoh p pos l
        total := specCount p pos l } := by
  rw [scanAll, scan_foldl_spec]
  congr 1 <;> simp [Vec3.zero_add']

theorem specSep_eq_zero_of_count (p : Params) (pos : Vec3) (l : List Bird)
    (h : specCount p pos l = 0) : specSep p pos l = 0 := by
  induction l with
  | nil => rfl
  | cons o rest ih =>
    rw [specCount_cons] at h
    rw [specSep_cons]
    by_cases hg : 0 < (pos - o.position).norm ∧
        (pos - o.position).norm < p.PERCEPTION_RADIUS
    · rw [if_pos hg] at h; omega
    · rw [if_neg hg] at h ⊢
      rw [Nat.zero_add] at h
      rw [ih h, Vec3.add_zero']

theorem specAlign_eq_zero_of_count (p : Params) (pos : Vec3) (l : List Bird)
    (h : specCount p pos l = 0) : specAlign p pos l = 0 := by
  induction l with
  | nil => rfl
  | cons o rest ih =>
    rw [specCount_cons] at h
    rw [specAlign_cons]
    by_cases hg : 0 < (pos - o.position).norm ∧
        (pos - o.position).norm < p.PERCEPTION_RADIUS
    · rw [if_pos hg] at h; omega
    · rw [if_neg hg] at h ⊢
      rw [Nat.zero_add] at h
      rw [ih h, Vec3.add_zero']

theorem specCoh_eq_zero_of_count (p : Params) (pos : Vec3) (l : List Bird)
    (h : specCount p pos l = 0) : specCoh p pos l = 0 := by
  induction l with
  | nil => rfl
  | cons o rest ih =>
    rw [specCount_cons] at h
    rw [specCoh_cons]
    by_cases hg : 0 < (pos - o.position).norm ∧
        (pos - o.position).norm < p.PERCEPTION_RADIUS
    · rw [if_pos hg] at h; omega
    · rw [if_neg hg] at h ⊢
      rw [Nat.zero_add] at h
      rw [ih h, Vec3.add_zero']

theorem scanAll_total_zero (p : Params) (pos : Vec3) (l : List Bird)
    (h : (scanAll p pos l).total = 0) :
    scanAll p pos l =
      { separation := 0, alignment := 0, cohesion := 0, total := 0 } := by
  rw [scanAll_eq_spec] at h ⊢
  dsimp only at h
  rw [specSep_eq_zero_of_count p pos l h, specAlign_eq_zero_of_count p pos l h,
    specCoh_eq_zero_of_count p pos l h, h]

theorem force_branch_eq (p : Params) (vel s : Vec3) :
    (if 0 < s.norm then
        limit_vec (p.MAX_SPEED • s.normalize - vel) p.MAX_FORCE
      else s) =
      (if s = 0 then s else specSteer p vel s) := by
  by_cases h : s = 0
  · subst h
    rw [Vec3.norm_zero, if_neg (lt_irrefl 0), if_pos rfl]
  · have hn : 0 < s.norm := (Vec3.norm_pos_iff s).mpr h
    rw [if_pos hn, if_neg h, specSteer]

theorem rayonStep_eq_specStep (p : Params) (bird : Bird)
    (snapshot : List Bird) :
    rayonStepBird p bird snapshot = specStep p bird snapshot := by
  simp only [rayonStepBird, specStep]
  rw [scanAll_eq_spec]
  dsimp only
  by_cases hc : specCount p bird.position snapshot = 0
  · rw [if_neg (show ¬0 < specCount p bird.position snapshot by
        rw [hc]; exact lt_irrefl 0),
      if_pos hc, if_pos hc, if_pos hc,
      specSep_eq_zero_of_count p _ _ hc, specAlign_eq_zero_of_count p _ _ hc,
      specCoh_eq_zero_of_count p _ _ hc]
    rfl
  · have hpos : 0 < specCount p bird.position snapshot := Nat.pos_of_ne_zero hc
    rw [if_pos hpos, if_neg hc, if_neg hc, if_neg hc]
    dsimp only
    rw [force_branch_eq, force_branch_eq, force_branch_eq]
    rfl

theorem if_norm_zero_eq (s X : Vec3) :
    (if 0 < s.norm then X else s) = (if 0 < s.norm then X else 0) := by
  by_cases h : 0 < s.norm
  · rw [if_pos h, if_pos h]
  · rw [if_neg h, if_neg h]
    have h0 : s.norm = 0 := le_antisymm (not_lt.mp h) (Vec3.norm_nonneg s)
    exact (Vec3.norm_eq_zero_iff s).mp h0

theorem calc_eq_rayon (p : Params) (i : ℕ) (bird : Bird) (snapshot : List Bird) :
    calculate_bird_update p i bird snapshot =
      ((rayonStepBird p bird snapshot).position,
       (rayonStepBird p bird snapshot).velocity) := by
  simp only [calculate_bird_update, rayonStepBird]
  by_cases hc : 0 < (scanAll p bird.position snapshot).total
  · rw [if_pos hc, if_pos hc]
    dsimp only
    rw [if_norm_zero_eq, if_norm_zero_eq, if_norm_zero_eq]
  · rw [if_neg hc, if_neg hc]
    have h0 : (scanAll p bird.position snapshot).total = 0 := by omega
    rw [scanAll_total_zero p _ _ h0]
    dsimp only
    simp only [Vec3.smul_zero', Vec3.add_zero']

/-- Claim C1: for every agent and snapshot, the per-step update — the rayon
variants' in-place update body as well as the threadpool variant's
`calculate_bird_update` — computes the new state exactly as the reference
algorithm of the spec: neighbour accumulation under
`0 < d < PERCEPTION_RADIUS`, division of the accumulators by
`neighbor_count` when positive, conversion of each non-zero accumulator
(for cohesion after subtracting the agent's position) into the
`MAX_FORCE`-clamped steering force, weighted force sum as acceleration,
velocity clamped to `MAX_SPEED`, wraparound of the advanced position, and
zero forces when `neighbor_count = 0`. -/
theorem C1_step_matches_reference (p : Params) (i : ℕ) (bird : Bird)
    (snapshot : List Bird) :
    rayonStepBird p bird snapshot = specStep p bird snapshot ∧
    calculate_bird_update p i bird snapshot =
      ((specStep p bird snapshot).position,
       (specStep p bird snapshot).velocity) := by
  constructor
  · exact rayonStep_eq_specStep p bird snapshot
  · rw [calc_eq_rayon, rayonStep_eq_specStep]

theorem le_numTasks_mul (n cs : ℕ) (h : 1 ≤ cs) : n ≤ numTasks n cs * cs := by
  obtain ⟨c, rfl⟩ : ∃ c, cs = c + 1 := ⟨cs - 1, by omega⟩
  simp only [numTasks, Nat.mul_comm]
  have hd := Nat.div_add_mod (n + (c + 1) - 1) (c + 1)
  have hm : (n + (c + 1) - 1) % (c + 1) < c + 1 :=
    Nat.mod_lt _ (Nat.succ_pos c)
  generalize hq : (n + (c + 1) - 1) / (c + 1) = q at hd ⊢
  generalize hr : (n + (c + 1) - 1) % (c + 1) = r at hd hm
  generalize hX : (c + 1) * q = X at hd ⊢
  omega

theorem runTasks_range_eq (p : Params) (snapshot : List Bird) (cs T i : ℕ) :
    runTasks p snapshot cs (List.range T) i =
      if i < min (T * cs) snapshot.length then
        calculate_bird_update p i (snapshot.getD i defaultBird) snapshot
      else (0, 0) := by
  induction T with
  | zero => simp [runTasks, zeroResults]
  | succ T ih =>
    have hfold : runTasks p snapshot cs (List.range (T + 1)) =
        writeTask p snapshot cs (runTasks p snapshot cs (List.range T)) T := by
      rw [runTasks, List.range_succ, List.foldl_append, List.foldl_cons,
        List.foldl_nil, runTasks]
    rw [hfold, writeTask]
    rw [Nat.succ_mul]
    by_cases hg : T * cs ≤ i ∧ i < min (T * cs + cs) snapshot.length
    · rw [if_pos hg, if_pos hg.2]
    · rw [if_neg hg, ih]
      by_cases h1 : i < min (T * cs) snapshot.length
      · rw [if_pos h1,
          if_pos (show i < min (T * cs + cs) snapshot.length by omega)]
      · rw [if_neg h1,
          if_neg (show ¬i < min (T * cs + cs) snapshot.length by omega)]

theorem threadpoolStep_eq_stepFlock (p : Params) (birds : List Bird) (cs : ℕ)
    (h : 1 ≤ cs) :
    threadpoolStep p birds cs =
      (stepFlock p birds).map fun b =>
        { position := b.position, velocity := b.velocity
          acceleration := 0 } := by
  have hcov : birds.length ≤ numTasks birds.length cs * cs :=
    le_numTasks_mul _ _ h
  apply List.ext_getElem
  · simp [threadpoolStep, threadpoolStepWith, mergeResults, stepFlock]
  · intro i h1 h2
    have hi : i < birds.length := by
      simpa [threadpoolStep, threadpoolStepWith, mergeResults] using h1
    simp only [threadpoolStep, threadpoolStepWith, mergeResults, stepFlock,
      List.getElem_map, List.getElem_range]
    rw [runTasks_range_eq,
      if_pos (show i < min (numTasks birds.length cs * cs) birds.length by
        omega),
      calc_eq_rayon, List.getD_eq_getElem birds defaultBird hi]

/-- Claim C4: for every agent, snapshot and prior state, the `(position,
velocity)` pair of the threadpool variant's `calculate_bird_update` equals
the pair computed by the rayon variant's in-place per-agent update body,
and the chunked threadpool step therefore computes, for every chunk size,
the same per-agent results as the rayon step (with acceleration reset at
its merge). -/
theorem C4_threadpool_matches_rayon (p : Params) :
    (∀ (i : ℕ) (bird : Bird) (snapshot : List Bird),
        calculate_bird_update p i bird snapshot =
          ((rayonStepBird p bird snapshot).position,
           (rayonStepBird p bird snapshot).velocity)) ∧
    (∀ (birds : List Bird) (cs : ℕ), 1 ≤ cs →
        threadpoolStep p birds cs =
          (stepFlock p birds).map fun b =>
            { position := b.position, velocity := b.velocity
              acceleration := 0 }) :=
  ⟨fun i bird snapshot => calc_eq_rayon p i bird snapshot,
   fun birds cs hcs => threadpoolStep_eq_stepFlock p birds cs hcs⟩

/-- Witness for C4 at a concrete population and chunk size. -/
theorem C4_threadpool_matches_rayon_witness :
    threadpoolStep defaultParams [restingBird] 1 =
      (stepFlock defaultParams [restingBird]).map fun b =>
        { position := b.position, velocity := b.velocity
          acceleration := 0 } :=
  (C4_threadpool_matches_rayon defaultParams).2 [restingBird] 1 le_rfl

theorem divs_one (v : Vec3) : v.divs 1 = v := by
  apply Vec3.ext' <;> simp

theorem scanAll_demo :
    scanAll demoParams restingBird.position [demoOther] =
      { separation := ⟨-1, 0, 0⟩, alignment := 0, cohesion := ⟨1, 0, 0⟩
        total := 1 } := by
  rw [scanAll, List.foldl_cons, List.foldl_nil]
  simp only [scanStep]
  have hd : (restingBird.position - demoOther.position).norm = 1 := by
    norm_num [restingBird, demoOther, Vec3.norm]
  rw [hd]
  rw [if_pos (by norm_num [demoParams] : (0:ℝ) < 1 ∧ (1:ℝ) < demoParams.PERCEPTION_RADIUS)]
  congr 1
  · apply Vec3.ext' <;> norm_num [restingBird, demoOther]
  · apply Vec3.ext' <;> norm_num [restingBird, demoOther]
  · apply Vec3.ext' <;> norm_num [restingBird, demoOther]

theorem rayon_demo_acceleration :
    (rayonStepBird demoParams restingBird [demoOther]).acceleration =
      ⟨-1, 0, 0⟩ := by
  simp only [rayonStepBird]
  rw [scanAll_demo]
  dsimp only
  rw [if_pos (by norm_num : 0 < 1)]
  dsimp only
  rw [Nat.cast_one, divs_one, divs_one, divs_one]
  have hs2 : ((0 : Vec3)).norm = 0 := Vec3.norm_zero
  have hneg : (Vec3.mk (-1) 0 0).norm = 1 := by norm_num [Vec3.norm]
  have hcoh : (Vec3.mk 1 0 0) - restingBird.position = Vec3.mk 1 0 0 := by
    apply Vec3.ext' <;> norm_num [restingBird]
  rw [hcoh]
  have hpos : (Vec3.mk 1 0 0).norm = 1 := by norm_num [Vec3.norm]
  rw [hneg, hs2, hpos]
  rw [if_pos (by norm_num : (0:ℝ) < 1), if_neg (by norm_num : ¬(0:ℝ) < 0),
    if_pos (by norm_num : (0:ℝ) < 1)]
  have hn1 : (Vec3.mk (-1) 0 0).normalize = Vec3.mk (-1) 0 0 := by
    rw [Vec3.normalize, hneg, divs_one]
  have hn2 : (Vec3.mk 1 0 0).normalize = Vec3.mk 1 0 0 := by
    rw [Vec3.normalize, hpos, divs_one]
  rw [hn1, hn2]
  have hst1 : limit_vec (demoParams.MAX_SPEED • Vec3.mk (-1) 0 0 -
      restingBird.velocity) demoParams.MAX_FORCE = Vec3.mk (-1) 0 0 := by
    have hv : demoParams.MAX_SPEED • Vec3.mk (-1) 0 0 - restingBird.velocity =
        Vec3.mk (-1) 0 0 := by
      apply Vec3.ext' <;> norm_num [restingBird, demoParams]
    rw [hv, limit_vec, hneg, if_neg (by norm_num [demoParams])]
  have hst2 : limit_vec (demoParams.MAX_SPEED • Vec3.mk 1 0 0 -
      restingBird.velocity) demoParams.MAX_FORCE = Vec3.mk 1 0 0 := by
    have hv : demoParams.MAX_SPEED • Vec3.mk 1 0 0 - restingBird.velocity =
        Vec3.mk 1 0 0 := by
      apply Vec3.ext' <;> norm_num [restingBird, demoParams]
    rw [hv, limit_vec, hpos, if_neg (by norm_num [demoParams])]
  rw [hst1, hst2]
  apply Vec3.ext' <;> norm_num [demoParams]

/-- Claim C10: after every threadpool-variant step — whichever tasks
completed — every agent's acceleration in the live store is the zero
vector, because the write-back merge stores only `(position, velocity)` and
resets `acceleration`; the rayon variants instead store the weighted force
in the acceleration field, which is non-zero on a concrete two-bird
input. -/
theorem C10_merge_resets_acceleration :
    (∀ (p : Params) (birds : List Bird) (cs : ℕ) (completed : List ℕ),
        ∀ b ∈ threadpoolStepWith p birds cs completed, b.acceleration = 0) ∧
    (rayonStepBird demoParams restingBird [demoOther]).acceleration ≠ 0 := by
  constructor
  · intro p birds cs completed b hb
    simp only [threadpoolStepWith, mergeResults, List.mem_map] at hb
    obtain ⟨i, _, rfl⟩ := hb
    rfl
  · rw [rayon_demo_acceleration]
    intro h
    have hx := congrArg Vec3.x h
    norm_num at hx

/-- Witness for C10 on a concrete merged store. -/
theorem C10_merge_resets_acceleration_witness :
    ({ position := 0, velocity := 0, acceleration := 0 } : Bird).acceleration
      = 0 ∧
    (rayonStepBird demoParams restingBird [demoOther]).acceleration ≠ 0 :=
  ⟨C10_merge_resets_acceleration.1 defaultParams [restingBird] 1 [] _
    (by simp [threadpoolStepWith, mergeResults, runTasks, zeroResults]),
   C10_merge_resets_acceleration.2⟩

/-- Claim C6, evaluated on the code: when no task completes within the
bounded wait (`completed = []`), the merge still copies the
zero-initialised results buffer over the live store, so the stalled agent's
position and velocity are overwritten with the default zero vectors even
though its prior position was non-zero — the run continues, but the agent
state is corrupted, contrary to the claim. -/
theorem C6_stalled_step_overwrites_with_zero :
    threadpoolStepWith defaultParams [stalledBird] 1 [] =
      [{ position := 0, velocity := 0, acceleration := 0 }] ∧
    stalledBird.position ≠ 0 := by
  constructor
  · simp [threadpoolStepWith, mergeResults, runTasks, zeroResults]
  · intro h
    have hx := congrArg Vec3.x h
    norm_num [stalledBird] at hx

theorem scanStep_coincident (p : Params) (pos : Vec3) (acc : Accum)
    (other : Bird) (h : other.position = pos) :
    scanStep p pos acc other = acc := by
  simp only [scanStep]
  rw [h]
  have hself : pos - pos = (0 : Vec3) := by apply Vec3.ext' <;> simp
  rw [hself, Vec3.norm_zero]
  rw [if_neg]
  intro hcon
  exact lt_irrefl 0 hcon.1

/-- Claim C9: exclusion at distance zero is decided by the strict
inequality on distance, not by identity: a distinct agent whose position
coincides with the subject's contributes nothing to any accumulator and
does not increment `neighbor_count`, wherever it sits in the snapshot —
exactly as the agent's own self-comparison is excluded. -/
theorem C9_coincident_agent_excluded (p : Params) (bird other : Bird)
    (pre post : List Bird) (h : other.position = bird.position) :
    scanAll p bird.position (pre ++ other :: post) =
      scanAll p bird.position (pre ++ post) := by
  rw [scanAll, scanAll, List.foldl_append, List.foldl_append, List.foldl_cons,
    scanStep_coincident p bird.position _ other h]

/-- Witness for C9: a coincident agent with a different velocity is
excluded from a concrete scan. -/
theorem C9_coincident_agent_excluded_witness :
    scanAll defaultParams stalledBird.position
        ([] ++ ({ position := ⟨1, 2, 3⟩, velocity := ⟨5, 5, 5⟩
                  acceleration := 0 } : Bird) :: []) =
      scanAll defaultParams stalledBird.position ([] ++ []) :=
  C9_coincident_agent_excluded defaultParams stalledBird
    { position := ⟨1, 2, 3⟩, velocity := ⟨5, 5, 5⟩, acceleration := 0 }
    [] [] rfl

theorem norm_clamp_le (M : ℝ) (hM : 0 ≤ M) (v : Vec3) :
    (if M < v.norm then M • v.normalize else v).norm ≤ M := by
  by_cases h : M < v.norm
  · rw [if_pos h]
    have hv : v ≠ 0 := (Vec3.norm_pos_iff v).mp (lt_of_le_of_lt hM h)
    rw [Vec3.norm_smul', Vec3.norm_normalize v hv, mul_one, abs_of_nonneg hM]
  · rw [if_neg h]
    exact not_lt.mp h

theorem rayonStep_velocity_le (p : Params) (hM : 0 ≤ p.MAX_SPEED)
    (bird : Bird) (snapshot : List Bird) :
    (rayonStepBird p bird snapshot).velocity.norm ≤ p.MAX_SPEED := by
  simp only [rayonStepBird]
  exact norm_clamp_le p.MAX_SPEED hM _

/-- Claim C2: with a non-negative `MAX_SPEED` (0.125 in the source), after
every step — the clamp adds the acceleration and rescales to magnitude
exactly `MAX_SPEED` with direction preserved when the sum exceeds it —
every agent's velocity norm is at most `MAX_SPEED`, in every state
reachable by at least one step. -/
theorem C2_velocity_invariant (p : Params) (hM : 0 ≤ p.MAX_SPEED)
    (birds : List Bird) (n : ℕ) (hn : 1 ≤ n) :
    ∀ b ∈ simulate p birds n, b.velocity.norm ≤ p.MAX_SPEED := by
  obtain ⟨k, rfl⟩ : ∃ k, n = k + 1 := ⟨n - 1, by omega⟩
  intro b hb
  rw [simulate] at hb
  simp only [stepFlock, List.mem_map] at hb
  obtain ⟨a, _, rfl⟩ := hb
  exact rayonStep_velocity_le p hM a (simulate p birds k)

/-- Witness for C2 after one step of a one-bird flock. -/
theorem C2_velocity_invariant_witness :
    (rayonStepBird defaultParams restingBird [restingBird]).velocity.norm ≤
      defaultParams.MAX_SPEED :=
  C2_velocity_invariant defaultParams (by norm_num [defaultParams])
    [restingBird] 1 le_rfl _ (by simp [simulate, stepFlock])

/-- Claim C3: when `SPACE_MIN < SPACE_MAX`, wraparound maps every
coordinate of every vector into `[SPACE_MIN, SPACE_MAX]` on each axis
independently, and a coordinate overshooting the domain by three full
widths plus 0.1 maps to the correct modular position `SPACE_MIN + 0.1`,
not a clamped one. -/
theorem C3_wraparound_into_domain (p : Params)
    (h : p.SPACE_MIN < p.SPACE_MAX) :
    (∀ v : Vec3,
        (p.SPACE_MIN ≤ (wraparound p v).x ∧ (wraparound p v).x ≤ p.SPACE_MAX) ∧
        (p.SPACE_MIN ≤ (wraparound p v).y ∧ (wraparound p v).y ≤ p.SPACE_MAX) ∧
        (p.SPACE_MIN ≤ (wraparound p v).z ∧ (wraparound p v).z ≤ p.SPACE_MAX)) ∧
    wrap1 defaultParams.SPACE_MIN defaultParams.SPACE_MAX
        (defaultParams.SPACE_MAX +
          3 * (defaultParams.SPACE_MAX - defaultParams.SPACE_MIN) + 0.1) =
      defaultParams.SPACE_MIN + 0.1 := by
  constructor
  · intro v
    exact ⟨wrap1_mem _ _ h v.x, wrap1_mem _ _ h v.y, wrap1_mem _ _ h v.z⟩
  · simp only [defaultParams]
    rw [show (7.5 : ℝ) + 3 * (7.5 - -7.5) + 0.1 = 52.6 by norm_num]
    simp only [wrap1]
    rw [if_neg (by norm_num), if_pos (by norm_num)]
    rw [rustRem, truncR, if_pos (by norm_num : (0:ℝ) ≤ (52.6 - 7.5) / (7.5 - -7.5))]
    norm_num

/-- Witness for C3 with the default domain and the overshooting input. -/
theorem C3_wraparound_into_domain_witness :
    defaultParams.SPACE_MIN ≤ (wraparound defaultParams ⟨52.6, 0, 0⟩).x ∧
      (wraparound defaultParams ⟨52.6, 0, 0⟩).x ≤ defaultParams.SPACE_MAX :=
  ((C3_wraparound_into_domain defaultParams (by norm_num [defaultParams])).1
    ⟨52.6, 0, 0⟩).1

/-- Claim C7: wraparound is the identity on every coordinate already inside
`[SPACE_MIN, SPACE_MAX]`, and is therefore idempotent on every input when
the domain is non-degenerate. -/
theorem C7_wraparound_identity (p : Params) :
    (∀ v : Vec3,
        p.SPACE_MIN ≤ v.x → v.x ≤ p.SPACE_MAX →
        p.SPACE_MIN ≤ v.y → v.y ≤ p.SPACE_MAX →
        p.SPACE_MIN ≤ v.z → v.z ≤ p.SPACE_MAX →
        wraparound p v = v) ∧
    (p.SPACE_MIN < p.SPACE_MAX → ∀ v : Vec3,
        wraparound p (wraparound p v) = wraparound p v) := by
  constructor
  · intro v h1 h2 h3 h4 h5 h6
    apply Vec3.ext'
    · exact wrap1_eq_of_mem _ _ _ h1 h2
    · exact wrap1_eq_of_mem _ _ _ h3 h4
    · exact wrap1_eq_of_mem _ _ _ h5 h6
  · intro h v
    apply Vec3.ext'
    · exact wrap1_eq_of_mem _ _ _ (wrap1_mem _ _ h v.x).1 (wrap1_mem _ _ h v.x).2
    · exact wrap1_eq_of_mem _ _ _ (wrap1_mem _ _ h v.y).1 (wrap1_mem _ _ h v.y).2
    · exact wrap1_eq_of_mem _ _ _ (wrap1_mem _ _ h v.z).1 (wrap1_mem _ _ h v.z).2

/-- Witness for C7 on an in-bounds point of the default domain. -/
theorem C7_wraparound_identity_witness :
    wraparound defaultParams ⟨3, 0, 0⟩ = ⟨3, 0, 0⟩ :=
  (C7_wraparound_identity defaultParams).1 ⟨3, 0, 0⟩
    (by norm_num [defaultParams]) (by norm_num [defaultParams])
    (by norm_num [defaultParams]) (by norm_num [defaultParams])
    (by norm_num [defaultParams]) (by norm_num [defaultParams])

/-- Counterexample to claim C5 as stated for every bound: with the negative
bound `-1` and the unit x-vector, whose norm 1 exceeds `-1`, `limit_vec`
does not return a vector of magnitude `-1` (no vector has a negative
magnitude; the code returns `normalize(v) * (-1)`, of magnitude 1 and
reversed direction). -/
theorem C5_negative_bound_counterexample :
    (-1 : ℝ) < (Vec3.mk 1 0 0).norm ∧
      (limit_vec (Vec3.mk 1 0 0) (-1)).norm ≠ -1 := by
  have hpos : (Vec3.mk 1 0 0).norm = 1 := by norm_num [Vec3.norm]
  constructor
  · rw [hpos]; norm_num
  · simp only [limit_vec]
    rw [hpos, if_pos (by norm_num)]
    have hn : (Vec3.mk 1 0 0).normalize = Vec3.mk 1 0 0 := by
      rw [Vec3.normalize, hpos, divs_one]
    rw [hn]
    have hsm : ((-1 : ℝ) • Vec3.mk 1 0 0) = Vec3.mk (-1) 0 0 := by
      apply Vec3.ext' <;> norm_num
    rw [hsm]
    norm_num [Vec3.norm]

/-- Claim C5 as amended: `limit_vec` returns short vectors unchanged for
every bound, and for a non-negative bound `max < ‖v‖` it returns the vector
rescaled to magnitude exactly `max` with identical direction (a
non-negative scalar multiple of `v`). -/
theorem C5_limit_vec_amended (v : Vec3) (max : ℝ) :
    (v.norm ≤ max → limit_vec v max = v) ∧
    (0 ≤ max → max < v.norm →
      (limit_vec v max).norm = max ∧
        limit_vec v max = (max / v.norm) • v) := by
  constructor
  · intro hle
    rw [limit_vec, if_neg (not_lt.mpr hle)]
  · intro hmax hlt
    have hv : v ≠ 0 := (Vec3.norm_pos_iff v).mp (lt_of_le_of_lt hmax hlt)
    rw [limit_vec, if_pos hlt]
    refine ⟨?_, ?_⟩
    · rw [Vec3.norm_smul', Vec3.norm_normalize v hv, mul_one,
        abs_of_nonneg hmax]
    · rw [Vec3.normalize, Vec3.divs_eq_smul]
      apply Vec3.ext' <;> simp [div_eq_mul_inv] <;> ring

/-- Witness for C5 (amended) at a short and a long concrete vector. -/
theorem C5_limit_vec_amended_witness :
    limit_vec (Vec3.mk 1 0 0) 2 = Vec3.mk 1 0 0 ∧
      (limit_vec (Vec3.mk 1 0 0) 0.5).norm = 0.5 :=
  ⟨(C5_limit_vec_amended _ _).1 (by norm_num [Vec3.norm]),
   ((C5_limit_vec_amended _ _).2 (by norm_num)
     (by norm_num [Vec3.norm])).1⟩

theorem checkedDivs_eq (v : Vec3) (c : ℝ) (h : c ≠ 0) :
    checkedDivs v c = some (v.divs c) := by
  rw [checkedDivs, if_neg h]

theorem checkedNormalize_eq (v : Vec3) (h : v ≠ 0) :
    checkedNormalize v = some v.normalize := by
  rw [checkedNormalize,
    if_neg (fun h0 => h ((Vec3.norm_eq_zero_iff v).mp h0))]

theorem limit_vecChecked_eq (v : Vec3) (max : ℝ) (hmax : 0 ≤ max) :
    limit_vecChecked v max = some (limit_vec v max) := by
  rw [limit_vecChecked, limit_vec]
  by_cases h : max < v.norm
  · rw [if_pos h, if_pos h,
      checkedNormalize_eq v ((Vec3.norm_pos_iff v).mp (lt_of_le_of_lt hmax h)),
      Option.map_some']
  · rw [if_neg h, if_neg h]

theorem steerChecked_eq (p : Params) (hF : 0 ≤ p.MAX_FORCE) (vel s : Vec3)
    (h : s ≠ 0) :
    steerChecked p vel s =
      some (limit_vec (p.MAX_SPEED • s.normalize - vel) p.MAX_FORCE) := by
  rw [steerChecked, checkedNormalize_eq s h, Option.some_bind,
    limit_vecChecked_eq _ _ hF]

theorem force_checked_eq (p : Params) (hF : 0 ≤ p.MAX_FORCE) (vel s : Vec3) :
    (if 0 < s.norm then steerChecked p vel s else some s) =
      some (if 0 < s.norm then
        limit_vec (p.MAX_SPEED • s.normalize - vel) p.MAX_FORCE
      else s) := by
  by_cases h : 0 < s.norm
  · rw [if_pos h, if_pos h,
      steerChecked_eq p hF vel s ((Vec3.norm_pos_iff s).mp h)]
  · rw [if_neg h, if_neg h]

theorem clamp_checked_eq (p : Params) (hS : 0 ≤ p.MAX_SPEED) (v : Vec3) :
    (if p.MAX_SPEED < v.norm then
        (checkedNormalize v).map (fun u => p.MAX_SPEED • u)
      else some v) =
      some (if p.MAX_SPEED < v.norm then p.MAX_SPEED • v.normalize else v) := by
  by_cases h : p.MAX_SPEED < v.norm
  · rw [if_pos h, if_pos h,
      checkedNormalize_eq v ((Vec3.norm_pos_iff v).mp (lt_of_le_of_lt hS h)),
      Option.map_some']
  · rw [if_neg h, if_neg h]

theorem scanStepChecked_eq (p : Params) (pos : Vec3) (acc : Accum)
    (other : Bird) :
    scanStepChecked p pos (some acc) other = some (scanStep p pos acc other) := by
  rw [scanStepChecked, Option.some_bind]
  simp only [scanStep]
  by_cases hg : 0 < (pos - other.position).norm ∧
      (pos - other.position).norm < p.PERCEPTION_RADIUS
  · rw [if_pos hg, if_pos hg,
      checkedDivs_eq _ _ (ne_of_gt hg.1), Option.map_some']
  · rw [if_neg hg, if_neg hg]

theorem scanFoldChecked_eq (p : Params) (pos : Vec3) (l : List Bird)
    (acc : Accum) :
    l.foldl (scanStepChecked p pos) (some acc) =
      some (l.foldl (scanStep p pos) acc) := by
  induction l generalizing acc with
  | nil => rfl
  | cons o rest ih =>
    rw [List.foldl_cons, List.foldl_cons, scanStepChecked_eq, ih]

theorem scanAllChecked_eq (p : Params) (pos : Vec3) (l : List Bird) :
    scanAllChecked p pos l = some (scanAll p pos l) := by
  rw [scanAllChecked, scanAll, scanFoldChecked_eq]

/-- Claim C8: with non-negative tunables (as in the source constants) every
division and normalisation in the per-bird update has a non-zero
denominator: replaying the update with every division site checked (failing
with `none` on a zero denominator) always succeeds and returns exactly the
unchecked update, so the zero-denominator branch of every site is
unreachable; the guards substitute the zero vector instead of dividing. -/
theorem C8_no_division_by_zero (p : Params) (hS : 0 ≤ p.MAX_SPEED)
    (hF : 0 ≤ p.MAX_FORCE) (bird : Bird) (snapshot : List Bird) :
    rayonStepBirdChecked p bird snapshot =
      some (rayonStepBird p bird snapshot) := by
  simp only [rayonStepBirdChecked, rayonStepBird]
  rw [scanAllChecked_eq, Option.some_bind]
  by_cases hc : 0 < (scanAll p bird.position snapshot).total
  · have hcast : ((scanAll p bird.position snapshot).total : ℝ) ≠ 0 :=
      Nat.cast_ne_zero.mpr (Nat.pos_iff_ne_zero.mp hc)
    rw [if_pos hc, if_pos hc,
      checkedDivs_eq _ _ hcast, Option.some_bind,
      force_checked_eq p hF, Option.some_bind,
      checkedDivs_eq _ _ hcast, Option.some_bind,
      force_checked_eq p hF, Option.some_bind,
      checkedDivs_eq _ _ hcast, Option.some_bind,
      force_checked_eq p hF, Option.map_some', Option.some_bind]
    dsimp only
    rw [clamp_checked_eq p hS, Option.map_some']
  · rw [if_neg hc, if_neg hc, Option.some_bind]
    dsimp only
    rw [clamp_checked_eq p hS, Option.map_some']

/-- Witness for C8 at the source constants and a concrete two-bird
snapshot. -/
theorem C8_no_division_by_zero_witness :
    rayonStepBirdChecked demoParams restingBird [demoOther] =
      some (rayonStepBird demoParams restingBird [demoOther]) :=
  C8_no_division_by_zero demoParams (by norm_num [demoParams])
    (by norm_num [demoParams]) restingBird [demoOther]

end BirdFlock
